import Mathlib

/-!
Verification of the mermaid-preview diagram pipeline
(`src/validator.rs`, `src/renderer.rs`, `src/cache.rs`,
`lsp/src/main.rs`, `lsp/src/render.rs`) via a shallow embedding.

Strings are modelled as `List Char`; machine floats (`f64`) are modelled as
exact rationals `ℚ`; the filesystem is modelled as explicit state passed to
the functions that touch it.  Every definition is translated from the Rust
source; each doc comment names the Rust item it embeds.
-/

namespace Mermaid

/-- Convert a Lean string literal to the `List Char` representation used
throughout the development. -/
def str (s : String) : List Char := s.toList

/-- The Unicode `White_Space` property, as used by Rust `char::is_whitespace`
and by the `regex` crate's `\s` class. -/
def rustIsWhitespace (c : Char) : Bool :=
  c = ' ' || c = '\t' || c = '\n' || c = '\r' ||
  c = Char.ofNat 0x0B || c = Char.ofNat 0x0C || c = Char.ofNat 0x85 ||
  c = Char.ofNat 0xA0 || c = Char.ofNat 0x1680 ||
  (0x2000 ≤ c.toNat && c.toNat ≤ 0x200A) ||
  c = Char.ofNat 0x2028 || c = Char.ofNat 0x2029 ||
  c = Char.ofNat 0x202F || c = Char.ofNat 0x205F || c = Char.ofNat 0x3000

/-- Rust `str::trim_start`. -/
def trimStart : List Char → List Char
  | [] => []
  | c :: rest => if rustIsWhitespace c then trimStart rest else c :: rest

/-- Rust `str::trim_end`. -/
def trimEnd (s : List Char) : List Char :=
  (trimStart s.reverse).reverse

/-- Rust `str::trim`. -/
def trim (s : List Char) : List Char := trimEnd (trimStart s)

/-- Number of UTF-8 bytes of one scalar value; `str::len` in Rust counts
bytes, so the embedding needs the per-character byte width. -/
def utf8Width (c : Char) : Nat :=
  if c.toNat < 0x80 then 1
  else if c.toNat < 0x800 then 2
  else if c.toNat < 0x10000 then 3
  else 4

/-- Rust `str::len` (UTF-8 byte length). -/
def byteLen (s : List Char) : Nat := (s.map utf8Width).sum

/-- Rust `str::lines().count()`: segments separated by `'\n'`, a trailing
newline not opening a final empty segment. -/
def lineCount (s : List Char) : Nat :=
  if s = [] then 0
  else (s.count '\n') + 1 - (if s.getLast? = some '\n' then 1 else 0)

/-- Split at every `'\n'`; the result always has one more segment than the
number of newlines. -/
def splitRaw : List Char → List (List Char)
  | [] => [[]]
  | c :: rest =>
    match splitRaw rest with
    | [] => [[]]
    | p :: ps => if c = '\n' then [] :: p :: ps else (c :: p) :: ps

/-- Rust `str::lines`: split at `'\n'`, dropping one `'\r'` immediately
before each split point, the final line ending optional. -/
def splitLines (s : List Char) : List (List Char) :=
  if s = [] then []
  else
    (if s.getLast? = some '\n' then (splitRaw s).dropLast else splitRaw s).map
      (fun l => if l.getLast? = some '\r' then l.dropLast else l)

/-- Does `pat` occur at the head of `s`?  Rust `str::starts_with`. -/
def startsWith (s pat : List Char) : Bool := pat.isPrefixOf s

/-- Rust `str::ends_with`. -/
def endsWith (s pat : List Char) : Bool := pat.isSuffixOf s

/-- Does `pat` occur anywhere in `s`?  Rust `str::contains`. -/
def containsSubstr (s pat : List Char) : Bool :=
  match s with
  | [] => pat.isPrefixOf ([] : List Char)
  | _ :: rest => pat.isPrefixOf s || containsSubstr rest pat

/-- Index of the first occurrence of `pat` in `s`, Rust `str::find`. -/
def findSubstr (s pat : List Char) : Option Nat :=
  match s with
  | [] => if pat = [] then some 0 else none
  | _ :: rest =>
    if pat.isPrefixOf s then some 0
    else (findSubstr rest pat).map (· + 1)

/-- Rust `str::replace`: replace every non-overlapping occurrence of `pat`
(left to right) by `sub`.  All call sites in the source use a non-empty
pattern; the empty pattern is mapped to the identity. -/
def replaceAll (s pat sub : List Char) : List Char := go s
where
  go : List Char → List Char
    | [] => []
    | c :: rest =>
      if hp : pat = [] then c :: rest
      else if pat.isPrefixOf (c :: rest) then
        sub ++ go ((c :: rest).drop pat.length)
      else
        c :: go rest
  termination_by s => s.length
  decreasing_by
    · simp only [List.length_drop, List.length_cons]
      have h1 : 1 ≤ pat.length := List.length_pos.mpr hp
      omega
    · simp

end Mermaid

namespace Mermaid

/-! ## Validator (`src/validator.rs`) -/

/-- `ValidationError` from `src/validator.rs`. -/
inductive ValidationError
  | TooLarge (size max : Nat)
  | TooManyLines (lines max : Nat)
  | InvalidCharacters (hint : List Char)
  | EmptyInput
deriving DecidableEq, Repr

/-- `MAX_SIZE_BYTES` from `src/validator.rs`. -/
def MAX_SIZE_BYTES : Nat := 1048576

/-- `MAX_LINES` from `src/validator.rs`. -/
def MAX_LINES : Nat := 5000

/-- One character of the whitelist regex
`^[a-zA-Z0-9\s\-_\[\]\(\)\{\}:,\.\n\r\t]+$` from `src/validator.rs`
(`\s` is the Unicode white-space class of the `regex` crate). -/
def allowedChar (c : Char) : Bool :=
  (('a' ≤ c && c ≤ 'z') || ('A' ≤ c && c ≤ 'Z') || ('0' ≤ c && c ≤ '9')) ||
  rustIsWhitespace c ||
  c = '-' || c = '_' || c = '[' || c = ']' || c = '(' || c = ')' ||
  c = Char.ofNat 0x7B || c = Char.ofNat 0x7D ||
  c = ':' || c = ',' || c = '.' || c = '\n' || c = '\r' || c = '\t'

/-- `InputValidator::validate` from `src/validator.rs`: empty-after-trim,
byte-size ceiling, line-count ceiling, then the anchored character
whitelist, short-circuiting in that order. -/
def InputValidator.validate (source : List Char) : Except ValidationError Unit := do
  if trim source = [] then
    throw ValidationError.EmptyInput
  else if byteLen source > MAX_SIZE_BYTES then
    throw (ValidationError.TooLarge (byteLen source) MAX_SIZE_BYTES)
  else if lineCount source > MAX_LINES then
    throw (ValidationError.TooManyLines (lineCount source) MAX_LINES)
  else if !(source ≠ [] && source.all allowedChar) then
    throw (ValidationError.InvalidCharacters
      (str "Only alphanumeric, whitespace, and basic punctuation allowed (no shell metacharacters)"))
  else
    pure ()

/-! ## Renderer (`src/renderer.rs`) -/

/-- `RenderError` from `src/renderer.rs`. -/
inductive RenderError
  | SyntaxError (msg : List Char)
  | RenderFailed (msg : List Char)
  | Timeout
  | UnsupportedType (msg : List Char)
deriving DecidableEq, Repr

/-- The `diagram_types` array inside `MermaidRenderer::render`
(`src/renderer.rs`): thirteen keywords. -/
def diagram_types : List (List Char) :=
  [str "graph", str "flowchart", str "sequenceDiagram", str "classDiagram",
   str "stateDiagram", str "erDiagram", str "journey", str "gantt",
   str "pie", str "gitGraph", str "mindmap", str "timeline", str "quadrantChart"]

/-- The mock SVG produced by `MermaidRenderer::render` for a source of `n`
bytes (`src/renderer.rs`). -/
def mockSvg (n : Nat) : List Char :=
  str "<svg xmlns=\"http://www.w3.org/2000/svg\" width=\"400\" height=\"300\">\n  <rect width=\"400\" height=\"300\" fill=\"#f9f9f9\"/>\n  <text x=\"200\" y=\"150\" text-anchor=\"middle\" font-size=\"16\" fill=\"#333\">\n    Mock Mermaid Diagram\n  </text>\n  <text x=\"200\" y=\"180\" text-anchor=\"middle\" font-size=\"12\" fill=\"#666\">\n    "
  ++ str (toString n) ++
  str " chars\n  </text>\n  <text x=\"200\" y=\"200\" text-anchor=\"middle\" font-size=\"10\" fill=\"#999\">\n    (Replace with mermaid-rs-renderer for production)\n  </text>\n</svg>"

/-- `MermaidRenderer::render` from `src/renderer.rs`: accept iff the trimmed
source starts with one of the thirteen `diagram_types` keywords, else a
`SyntaxError`; on success return the mock SVG. -/
def MermaidRenderer.render (source : List Char) : Except RenderError (List Char) :=
  if diagram_types.any (fun d => startsWith (trim source) d) then
    Except.ok (mockSvg (byteLen source))
  else
    Except.error (RenderError.SyntaxError
      (str "Diagram must start with a valid type (graph, flowchart, etc.)"))

/-! ## Cache (`src/cache.rs`) -/

/-- `CacheError` from `src/cache.rs`. -/
inductive CacheError
  | ReadError (msg : List Char)
  | WriteError (msg : List Char)
  | InvalidPath (msg : List Char)
deriving DecidableEq, Repr

/-- A filesystem path, as the list of its components
(Rust `Path::starts_with` compares component-wise). -/
abbrev FsPath := List (List Char)

/-- The filesystem state visible to `DiagramCache`: `canonicalize` (which
fails with `none` when the path does not exist) and `Path::exists`. -/
structure FS where
  canonicalize : FsPath → Option FsPath
  fileExists : FsPath → Bool

/-- The `ContentHash` newtype of `src/cache.rs`: a digest string. -/
abbrev ContentHash := List Char

/-- Rust `char::is_ascii_hexdigit`. -/
def isAsciiHexdigit (c : Char) : Bool :=
  ('0' ≤ c && c ≤ '9') || ('a' ≤ c && c ≤ 'f') || ('A' ≤ c && c ≤ 'F')

/-- `ContentHash::validate` from `src/cache.rs`: exactly 64 characters, all
ASCII hex digits, otherwise `InvalidPath`. -/
def ContentHash.validate (h : ContentHash) : Except CacheError Unit :=
  if h.length ≠ 64 then
    Except.error (CacheError.InvalidPath (str "Hash must be 64 characters"))
  else if !(h.all isAsciiHexdigit) then
    Except.error (CacheError.InvalidPath (str "Hash must only contain hex characters"))
  else
    Except.ok ()

/-- The digest-validity invariant as a boolean: 64 characters, all hex. -/
def validDigest (h : ContentHash) : Bool :=
  h.length = 64 && h.all isAsciiHexdigit

/-- `DiagramCache` from `src/cache.rs`. -/
structure DiagramCache where
  cache_dir : FsPath

/-- The canonical path resolution inside `DiagramCache::get_path`:
`path.canonicalize().or_else(|_| cache_dir.canonicalize().map(|p| p.join(filename)))`. -/
def DiagramCache.resolveCanonical (self : DiagramCache) (fs : FS)
    (filename : List Char) : Option FsPath :=
  match fs.canonicalize (self.cache_dir ++ [filename]) with
  | some p => some p
  | none => (fs.canonicalize self.cache_dir).map (fun p => p ++ [filename])

/-- `DiagramCache::get_path` from `src/cache.rs`: validate the digest before
touching the filesystem, join `<digest>.svg` under the cache root,
canonicalize both, and reject any resolved path that is not a descendant of
the canonicalized cache root.  The `io::Error` texts interpolated into the
two canonicalization failure messages are replaced by fixed placeholders. -/
def DiagramCache.get_path (self : DiagramCache) (fs : FS) (hash : ContentHash) :
    Except CacheError FsPath := do
  ContentHash.validate hash
  let filename := hash ++ str ".svg"
  let path := self.cache_dir ++ [filename]
  match fs.canonicalize self.cache_dir with
  | none => throw (CacheError.InvalidPath (str "Cannot canonicalize cache dir"))
  | some canonical_cache =>
    match self.resolveCanonical fs filename with
    | none => throw (CacheError.InvalidPath (str "Cannot canonicalize path"))
    | some canonical_path =>
      if !(List.isPrefixOf canonical_cache canonical_path) then
        throw (CacheError.InvalidPath (str "Path traversal attempt detected"))
      else
        pure path

/-- `DiagramCache::exists` from `src/cache.rs`:
`self.get_path(hash).ok().map_or(false, |path| path.exists())`. -/
def DiagramCache.exists_ (self : DiagramCache) (fs : FS) (hash : ContentHash) : Bool :=
  match self.get_path fs hash with
  | Except.error _ => false
  | Except.ok path => fs.fileExists path

/-! ## Content digests used as cache keys -/

/-- The byte sequence fed to SHA-256 by `ContentHash::from_source`
(`src/cache.rs`): the source bytes followed by the `CARGO_PKG_VERSION`
bytes (two consecutive `hasher.update` calls hash the concatenation).  The
digest is the SHA-256 of exactly this input. -/
def contentHashInput (source version : List Char) : List Char :=
  source ++ version

/-- The data hashed by `code_hash` in `lsp/src/main.rs`: only the fence
code is fed to the `DefaultHasher`; no version tag enters the hash.  The
`version` parameter is what the build's version tag would be — the source
ignores it, which this definition makes explicit. -/
def lspCodeHashInput (version code : List Char) : List Char :=
  let _ := version
  code

end Mermaid

namespace Mermaid

/-! ## Helper lemmas -/

/-- `ContentHash.validate` succeeds exactly on valid digests. -/
lemma contentHash_validate_ok_iff (h : ContentHash) :
    ContentHash.validate h = Except.ok () ↔ validDigest h = true := by
  unfold ContentHash.validate validDigest
  split_ifs with h1 h2
  · simp_all
  · simp_all
  · simp_all

/-- On an invalid digest, `ContentHash.validate` returns an `InvalidPath`
error determined by the digest alone. -/
lemma contentHash_validate_err (h : ContentHash) (hv : validDigest h = false) :
    ∃ msg, ContentHash.validate h = Except.error (CacheError.InvalidPath msg) := by
  unfold ContentHash.validate
  unfold validDigest at hv
  split_ifs with h1 h2
  · exact ⟨_, rfl⟩
  · exact ⟨_, rfl⟩
  · simp_all

/-- On an invalid digest, `get_path` fails with `InvalidPath`, with a result
that does not depend on the filesystem at all. -/
lemma get_path_invalid (cache : DiagramCache) (h : ContentHash)
    (hv : validDigest h = false) :
    ∃ msg, ∀ fs : FS,
      cache.get_path fs h = Except.error (CacheError.InvalidPath msg) := by
  obtain ⟨msg, hmsg⟩ := contentHash_validate_err h hv
  refine ⟨msg, fun fs => ?_⟩
  unfold DiagramCache.get_path
  rw [hmsg]
  rfl

end Mermaid

namespace Mermaid

/-! ## Claim theorems: cache and digests -/

/-- C3: a digest failing the validity invariant (length other than 64 or a
non-hex character) makes `DiagramCache::get_path` fail with `InvalidPath`
before any filesystem access (the result is the same for every filesystem
state); and when the canonicalized resolved path is not a descendant of the
canonicalized cache root, `get_path` returns the `InvalidPath` traversal
error rather than a corrected path. -/
theorem get_path_invalid_digest_and_traversal :
    (∀ (cache : DiagramCache) (fs fs' : FS) (h : ContentHash),
        validDigest h = false →
        cache.get_path fs h = cache.get_path fs' h ∧
        ∃ msg, cache.get_path fs h = Except.error (CacheError.InvalidPath msg)) ∧
    (∀ (cache : DiagramCache) (fs : FS) (h : ContentHash) (cc cp : FsPath),
        validDigest h = true →
        fs.canonicalize cache.cache_dir = some cc →
        cache.resolveCanonical fs (h ++ str ".svg") = some cp →
        List.isPrefixOf cc cp = false →
        cache.get_path fs h =
          Except.error (CacheError.InvalidPath (str "Path traversal attempt detected"))) := by
  constructor
  · intro cache fs fs' h hv
    obtain ⟨msg, hmsg⟩ := get_path_invalid cache h hv
    exact ⟨(hmsg fs).trans (hmsg fs').symm, msg, hmsg fs⟩
  · intro cache fs h cc cp hv hcc hcp hpre
    have hok : ContentHash.validate h = Except.ok () :=
      (contentHash_validate_ok_iff h).mpr hv
    unfold DiagramCache.get_path
    rw [hok]
    show (match fs.canonicalize cache.cache_dir with
      | none => _
      | some canonical_cache => _) = _
    rw [hcc, hcp]
    simp [hpre]
    rfl

/-- C3 witness: the all-`'g'` digest is rejected independently of the
filesystem, and a filesystem whose canonicalization escapes the cache root
produces the traversal error. -/
theorem get_path_invalid_digest_and_traversal_witness :
    (validDigest (List.replicate 64 'g') = false ∧
     ∃ msg, (DiagramCache.mk [str "cache"]).get_path
        (FS.mk (fun p => some p) (fun _ => false)) (List.replicate 64 'g') =
        Except.error (CacheError.InvalidPath msg)) ∧
    ((DiagramCache.mk [str "cache"]).get_path
        (FS.mk (fun p => if p = [str "cache"] then some [str "root", str "cache"]
                          else some [str "evil"]) (fun _ => false))
        (List.replicate 64 'a') =
      Except.error (CacheError.InvalidPath (str "Path traversal attempt detected"))) := by
  constructor
  · refine ⟨by decide, ?_⟩
    exact ((get_path_invalid_digest_and_traversal.1
      (DiagramCache.mk [str "cache"])
      (FS.mk (fun p => some p) (fun _ => false))
      (FS.mk (fun p => some p) (fun _ => false))
      (List.replicate 64 'g') (by decide)).2)
  · exact get_path_invalid_digest_and_traversal.2
      (DiagramCache.mk [str "cache"])
      (FS.mk (fun p => if p = [str "cache"] then some [str "root", str "cache"]
                        else some [str "evil"]) (fun _ => false))
      (List.replicate 64 'a') [str "root", str "cache"] [str "evil"]
      (by decide) (by decide) (by decide) (by decide)

/-- C10: for a digest failing the validity invariant, `DiagramCache::exists`
returns `false` rather than propagating the `InvalidPath` failure of the
path lookup. -/
theorem exists_false_on_invalid_digest :
    ∀ (cache : DiagramCache) (fs : FS) (h : ContentHash),
      validDigest h = false → cache.exists_ fs h = false := by
  intro cache fs h hv
  obtain ⟨msg, hmsg⟩ := get_path_invalid cache h hv
  unfold DiagramCache.exists_
  rw [hmsg fs]

/-- C10 witness: the cache reports the all-`'g'` digest as absent. -/
theorem exists_false_on_invalid_digest_witness :
    (DiagramCache.mk [str "cache"]).exists_
      (FS.mk (fun p => some p) (fun _ => true)) (List.replicate 64 'g') = false :=
  exists_false_on_invalid_digest (DiagramCache.mk [str "cache"])
    (FS.mk (fun p => some p) (fun _ => true)) (List.replicate 64 'g') (by decide)

/-- C8 counterexample: the LSP cache key (`code_hash` in `lsp/src/main.rs`)
hashes only the fence code — two builds with different version tags feed the
identical input to the hasher for the same source, so the digests are equal,
contradicting the claim that the cache-key hash input incorporates a version
tag. -/
theorem lsp_cache_key_ignores_version :
    lspCodeHashInput (str "0.1.0") (str "graph TD") =
      lspCodeHashInput (str "0.2.0") (str "graph TD") ∧
    str "0.1.0" ≠ str "0.2.0" := by
  exact ⟨rfl, by decide⟩

/-- C8 amended: `ContentHash::from_source` (the extension cache) does feed
the version tag after the source bytes, so for a fixed source its hash
input distinguishes version tags; but the LSP cache key input never depends
on the version.  Determinism of both is immediate since the embeddings are
functions of their inputs. -/
theorem digest_version_tag_behaviour :
    (∀ s v₁ v₂ : List Char, contentHashInput s v₁ = contentHashInput s v₂ ↔ v₁ = v₂) ∧
    (∀ v₁ v₂ c : List Char, lspCodeHashInput v₁ c = lspCodeHashInput v₂ c) := by
  constructor
  · intro s v₁ v₂
    exact ⟨fun h => List.append_cancel_left h, fun h => by rw [h]⟩
  · intro v₁ v₂ c
    rfl

end Mermaid

namespace Mermaid

/-! ## Claim theorems: validator and diagram-type gate -/

/-- C5 counterexample: `InputValidator::validate` performs no diagram-type
check at all — an input whose first token matches no diagram-type keyword
passes the validator with `Ok`, not an `UnknownDiagramType` error; and the
type gate that does exist (in `MermaidRenderer::render`) rejects `zenuml`,
which the claim lists as allowed. -/
theorem validator_accepts_unknown_diagram_type :
    InputValidator.validate (str "unknown TD") = Except.ok () ∧
    MermaidRenderer.render (str "zenuml A") =
      Except.error (RenderError.SyntaxError
        (str "Diagram must start with a valid type (graph, flowchart, etc.)")) := by
  constructor
  · rfl
  · rfl

/-- C5 amended: the validator checks only emptiness, the byte and line
ceilings and the character whitelist — it never inspects the first token —
while the diagram-type gate lives in `MermaidRenderer::render`, succeeds
exactly when the trimmed source starts with one of the thirteen keywords
`graph, flowchart, sequenceDiagram, classDiagram, stateDiagram, erDiagram,
journey, gantt, pie, gitGraph, mindmap, timeline, quadrantChart`, and
reports a `SyntaxError` (not an `UnknownDiagramType`) otherwise. -/
theorem validator_and_renderer_characterisation :
    (∀ source : List Char,
        InputValidator.validate source = Except.ok () ↔
        (trim source ≠ [] ∧ byteLen source ≤ MAX_SIZE_BYTES ∧
         lineCount source ≤ MAX_LINES ∧ source.all allowedChar = true)) ∧
    (∀ source : List Char,
        (∃ svg, MermaidRenderer.render source = Except.ok svg) ↔
        diagram_types.any (fun d => startsWith (trim source) d) = true) := by
  constructor
  · intro source
    have hne : trim source ≠ [] → source ≠ [] := by
      intro ht hs; exact ht (by rw [hs]; rfl)
    unfold InputValidator.validate
    split_ifs with h1 h2 h3 h4
    · simp [throw, throwThe, MonadExceptOf.throw, h1]
    · constructor
      · intro hc; cases hc
      · rintro ⟨-, hb, -, -⟩; omega
    · constructor
      · intro hc; cases hc
      · rintro ⟨-, -, hl, -⟩; omega
    · constructor
      · intro hc; cases hc
      · rintro ⟨ht, -, -, ha⟩
        simp only [Bool.not_eq_true', Bool.and_eq_false_iff] at h4
        rcases h4 with h4 | h4
        · exact absurd (by simpa using hne ht) (by simpa using h4)
        · exact absurd ha (by simp [h4])
    · simp only [not_lt] at h2 h3
      simp only [Bool.not_eq_true, Bool.not_eq_false', Bool.and_eq_true,
        decide_eq_true_eq] at h4
      constructor
      · intro _
        exact ⟨h1, h2, h3, h4.2⟩
      · intro _
        rfl
  · intro source
    unfold MermaidRenderer.render
    split_ifs with h
    · exact ⟨fun _ => h, fun _ => ⟨_, rfl⟩⟩
    · constructor
      · rintro ⟨svg, hsvg⟩; cases hsvg
      · intro hc; exact absurd hc h

end Mermaid

namespace Mermaid

/-! ## Document scanner (`lsp/src/main.rs`) -/

/-- `MermaidFence` from `lsp/src/main.rs`: opening line, closing line and the
code between the fences. -/
structure MermaidFence where
  start_line : Nat
  end_line : Nat
  code : List Char
deriving DecidableEq, Repr

/-- The opening-line test of `find_all_mermaid_fences`: the trimmed line
starts with the 3-backtick mermaid token and is not a wider fence. -/
def isFenceOpen (l : List Char) : Bool :=
  startsWith (trimStart l) (str "```mermaid") && !(startsWith (trimStart l) (str "````"))

/-- The closing-line test of `find_all_mermaid_fences`: the trimmed line is
exactly the bare 3-backtick token, optionally carrying a carriage return. -/
def isFenceClose (l : List Char) : Bool :=
  trimStart l = str "```" || startsWith (trimStart l) (str "```\r")

/-- Rust `slice::join("\n")`. -/
def joinLines (ls : List (List Char)) : List Char :=
  List.intercalate (str "\n") ls

/-- The inner loop of `find_all_mermaid_fences`: index of the first closing
line at or after `j`. -/
def findCloseFrom (lines : List (List Char)) (j : Nat) : Option Nat :=
  if h : j < lines.length then
    if isFenceClose (lines.get ⟨j, h⟩) then some j
    else findCloseFrom lines (j + 1)
  else none
termination_by lines.length - j


lemma findCloseFrom_ge {lines : List (List Char)} :
    ∀ j k, findCloseFrom lines j = some k → j ≤ k ∧ k < lines.length := by
  have H : ∀ n j k, lines.length - j = n → findCloseFrom lines j = some k →
      j ≤ k ∧ k < lines.length := by
    intro n
    induction n with
    | zero =>
      intro j k hn h
      unfold findCloseFrom at h
      split_ifs at h with h1 h2
      · cases h
        omega
      · omega
    | succ n ih =>
      intro j k hn h
      unfold findCloseFrom at h
      split_ifs at h with h1 h2
      · cases h
        omega
      · have := ih (j + 1) k (by omega) h
        omega
  exact fun j k h => H (lines.length - j) j k rfl h

/-- `find_all_mermaid_fences` from `lsp/src/main.rs`: scan for opening
lines, pair each with the first closing line after it (an unclosed fence is
dropped), record the inclusive span and the joined interior lines, and
resume after the closing line. -/
def find_all_mermaid_fences (lines : List (List Char)) : List MermaidFence :=
  go 0
where
  go (i : Nat) : List MermaidFence :=
    if h : i < lines.length then
      if isFenceOpen (lines.get ⟨i, h⟩) then
        match hj : findCloseFrom lines (i + 1) with
        | some j =>
          { start_line := i, end_line := j,
            code := joinLines ((lines.drop (i + 1)).take (j - (i + 1))) } :: go (j + 1)
        | none => []
      else go (i + 1)
    else []
  termination_by lines.length - i
  decreasing_by
    · have := @findCloseFrom_ge lines (i + 1) j hj
      omega
    · omega

/-- `find_mermaid_fence` from `lsp/src/main.rs`: the first scanned fence
whose inclusive line span contains the cursor. -/
def find_mermaid_fence (lines : List (List Char)) (cursor_line : Nat) :
    Option MermaidFence :=
  (find_all_mermaid_fences lines).find?
    (fun fence => cursor_line ≥ fence.start_line && cursor_line ≤ fence.end_line)

/-- Every fence produced by the scanner from index `i` starts at or after
`i`, with a nontrivial in-bounds span. -/
lemma find_all_go_bounds (lines : List (List Char)) :
    ∀ i f, f ∈ find_all_mermaid_fences.go lines i →
      i ≤ f.start_line ∧ f.start_line < f.end_line ∧ f.end_line < lines.length := by
  have H : ∀ n i f, lines.length - i ≤ n → f ∈ find_all_mermaid_fences.go lines i →
      i ≤ f.start_line ∧ f.start_line < f.end_line ∧ f.end_line < lines.length := by
    intro n
    induction n with
    | zero =>
      intro i f hn hf
      unfold find_all_mermaid_fences.go at hf
      split_ifs at hf with h1 h2
      · omega
      · omega
      · cases hf
    | succ n ih =>
      intro i f hn hf
      unfold find_all_mermaid_fences.go at hf
      split_ifs at hf with h1 h2
      · split at hf
        case _ j hj =>
          have hj2 := @findCloseFrom_ge lines (i + 1) j hj
          rcases List.mem_cons.mp hf with rfl | hmem
          · dsimp only
            omega
          · have := ih (j + 1) f (by omega) hmem
            omega
        case _ => cases hf
      · have hx : lines.length - (i + 1) ≤ n := by omega
        have := ih (i + 1) f hx hf
        omega
      · cases hf
  exact fun i f hf => H (lines.length - i) i f (le_refl _) hf

/-- The scanner's fences are pairwise disjoint, in document order. -/
lemma find_all_go_pairwise (lines : List (List Char)) :
    ∀ i, (find_all_mermaid_fences.go lines i).Pairwise
      (fun f g => f.end_line < g.start_line) := by
  have H : ∀ n i, lines.length - i ≤ n →
      (find_all_mermaid_fences.go lines i).Pairwise
        (fun f g => f.end_line < g.start_line) := by
    intro n
    induction n with
    | zero =>
      intro i hn
      unfold find_all_mermaid_fences.go
      split_ifs with h1 h2
      · omega
      · omega
      · exact List.Pairwise.nil
    | succ n ih =>
      intro i hn
      unfold find_all_mermaid_fences.go
      split_ifs with h1 h2
      · split
        case _ j hj =>
          have hj2 := @findCloseFrom_ge lines (i + 1) j hj
          refine List.Pairwise.cons ?_ (ih (j + 1) (by omega))
          intro g hg
          have := find_all_go_bounds lines (j + 1) g hg
          dsimp only
          omega
        case _ => exact List.Pairwise.nil
      · have hx : lines.length - (i + 1) ≤ n := by omega
        exact ih (i + 1) hx
      · exact List.Pairwise.nil
  exact fun i => H (lines.length - i) i (le_refl _)

/-- In a pairwise-disjoint fence list, `find?` returns exactly the member
fence containing the cursor. -/
lemma find_first_containing {l : List MermaidFence} {f : MermaidFence} {c : Nat}
    (hp : l.Pairwise (fun f g => f.end_line < g.start_line))
    (hf : f ∈ l) (h1 : f.start_line ≤ c) (h2 : c ≤ f.end_line) :
    l.find? (fun fence => c ≥ fence.start_line && c ≤ fence.end_line) = some f := by
  induction l with
  | nil => cases hf
  | cons a t ih =>
    rcases List.mem_cons.mp hf with rfl | hmem
    · have hcond : (c ≥ f.start_line && c ≤ f.end_line) = true := by
        simp only [Bool.and_eq_true, decide_eq_true_eq, ge_iff_le]
        exact ⟨h1, h2⟩
      exact List.find?_cons_of_pos _ hcond
    · have ha : a.end_line < f.start_line :=
        (List.pairwise_cons.mp hp).1 f hmem
      have hcond : (c ≥ a.start_line && c ≤ a.end_line) = false := by
        simp only [Bool.and_eq_false_iff, decide_eq_false_iff_not, not_le, ge_iff_le]
        right
        omega
      rw [List.find?_cons_of_neg _ (by simp [hcond])]
      exact ih (List.pairwise_cons.mp hp).2 hmem

/-- C9: the fence-at-cursor lookup returns the enclosing fence for every
cursor line from the opening line to the closing line inclusive, and
returns nothing when the cursor lies outside every scanned fence (in
particular one line before the opening or one line after the closing). -/
theorem find_fence_cursor_boundary :
    (∀ (lines : List (List Char)) (f : MermaidFence) (c : Nat),
        f ∈ find_all_mermaid_fences lines →
        f.start_line ≤ c → c ≤ f.end_line →
        find_mermaid_fence lines c = some f) ∧
    (∀ (lines : List (List Char)) (c : Nat),
        (∀ f ∈ find_all_mermaid_fences lines, c < f.start_line ∨ f.end_line < c) →
        find_mermaid_fence lines c = none) := by
  constructor
  · intro lines f c hf h1 h2
    exact find_first_containing (find_all_go_pairwise lines 0) hf h1 h2
  · intro lines c hout
    apply List.find?_eq_none.mpr
    intro f hf
    rcases hout f hf with h | h <;>
      · simp only [Bool.and_eq_false_iff, decide_eq_false_iff_not, not_le, ge_iff_le,
          Bool.not_eq_true]
        omega

unseal findCloseFrom find_all_mermaid_fences.go in
/-- C9 witness: in the six-line document with a fence spanning lines 1–4,
the lookup at the closing line 4 returns the fence, while lines 0 and 5
(one before the opening, one after the closing) return nothing. -/
theorem find_fence_cursor_boundary_witness :
    find_mermaid_fence
        (splitLines (str "Text\n```mermaid\ngraph TD\n  A-->B\n```\nMore text")) 4 =
      some ⟨1, 4, str "graph TD\n  A-->B"⟩ ∧
    find_mermaid_fence
        (splitLines (str "Text\n```mermaid\ngraph TD\n  A-->B\n```\nMore text")) 0 = none ∧
    find_mermaid_fence
        (splitLines (str "Text\n```mermaid\ngraph TD\n  A-->B\n```\nMore text")) 5 = none := by
  refine ⟨?_, ?_, ?_⟩
  · exact find_fence_cursor_boundary.1 _ ⟨1, 4, str "graph TD\n  A-->B"⟩ 4
      (by decide) (by decide) (by decide)
  · exact find_fence_cursor_boundary.2 _ 0 (by decide)
  · exact find_fence_cursor_boundary.2 _ 5 (by decide)

/-! ## String helper lemmas for the edit builder -/

lemma trimStart_cons_of_not_ws {c : Char} (h : rustIsWhitespace c = false)
    (rest : List Char) : trimStart (c :: rest) = c :: rest := by
  simp [trimStart, h]

lemma trimStart_eq_self {l : List Char}
    (h : ∀ c, l.head? = some c → rustIsWhitespace c = false) : trimStart l = l := by
  cases l with
  | nil => rfl
  | cons c rest => exact trimStart_cons_of_not_ws (h c rfl) rest

lemma trimEnd_eq_self {l : List Char}
    (h : ∀ c, l.getLast? = some c → rustIsWhitespace c = false) : trimEnd l = l := by
  unfold trimEnd
  rw [trimStart_eq_self, List.reverse_reverse]
  intro c hc
  exact h c (by rwa [List.head?_reverse] at hc)

lemma trim_eq_self {l : List Char}
    (h1 : ∀ c, l.head? = some c → rustIsWhitespace c = false)
    (h2 : ∀ c, l.getLast? = some c → rustIsWhitespace c = false) : trim l = l := by
  unfold trim
  rw [trimStart_eq_self h1, trimEnd_eq_self h2]

lemma trimEnd_append_singleton_ws {l : List Char} {c : Char}
    (h : rustIsWhitespace c = true) : trimEnd (l ++ [c]) = trimEnd l := by
  unfold trimEnd
  rw [List.reverse_append]
  simp [trimStart, h]

lemma splitRaw_ne_nil (s : List Char) : splitRaw s ≠ [] := by
  cases s with
  | nil => simp [splitRaw]
  | cons c rest =>
    conv_lhs => rw [splitRaw]
    cases hr : splitRaw rest with
    | nil => simp
    | cons p ps => split_ifs <;> simp

lemma splitRaw_no_newline {s : List Char} (h : '\n' ∉ s) : splitRaw s = [s] := by
  induction s with
  | nil => rfl
  | cons c rest ih =>
    have hc : c ≠ '\n' := fun hc => h (hc ▸ List.mem_cons_self c rest)
    have hrest : '\n' ∉ rest := fun hm => h (List.mem_cons_of_mem c hm)
    unfold splitRaw
    rw [ih hrest]
    simp [hc]

lemma splitRaw_cons_other {c : Char} (hc : c ≠ '\n') (rest : List Char) :
    splitRaw (c :: rest) = (splitRaw rest).modifyHead (c :: ·) := by
  conv_lhs => rw [splitRaw]
  cases hr : splitRaw rest with
  | nil => exact absurd hr (splitRaw_ne_nil rest)
  | cons p ps => simp [hc]

lemma splitRaw_append {u : List Char} (s : List Char) (h : '\n' ∉ u) :
    splitRaw (u ++ s) = (splitRaw s).modifyHead (u ++ ·) := by
  induction u with
  | nil =>
    cases hs : splitRaw s with
    | nil => exact absurd hs (splitRaw_ne_nil s)
    | cons p ps => simpa using hs
  | cons c u' ih =>
    have hc : c ≠ '\n' := fun hcc => h (hcc ▸ List.mem_cons_self c u')
    have hu : '\n' ∉ u' := fun hm => h (List.mem_cons_of_mem c hm)
    show splitRaw (c :: (u' ++ s)) = _
    rw [splitRaw_cons_other hc, ih hu]
    cases hs : splitRaw s with
    | nil => exact absurd hs (splitRaw_ne_nil s)
    | cons p ps => simp

lemma splitRaw_newline_cons (r : List Char) :
    splitRaw ('\n' :: r) = [] :: splitRaw r := by
  conv_lhs => rw [splitRaw]
  cases hr : splitRaw r with
  | nil => exact absurd hr (splitRaw_ne_nil r)
  | cons p ps => simp

/-- `splitLines` on a marker line, a blank line and a final line, none of
them containing a newline, the final line non-empty, none of the lines
ending in a carriage return. -/
lemma splitLines_three {a b : List Char}
    (ha : '\n' ∉ a) (hb : '\n' ∉ b) (hbne : b ≠ [])
    (hacr : a.getLast? ≠ some '\r') (hbcr : b.getLast? ≠ some '\r') :
    splitLines (a ++ '\n' :: '\n' :: b) = [a, [], b] := by
  have hraw : splitRaw (a ++ '\n' :: '\n' :: b) = [a, [], b] := by
    rw [splitRaw_append _ ha, splitRaw_newline_cons, splitRaw_newline_cons,
      splitRaw_no_newline hb]
    simp
  have hne : a ++ '\n' :: '\n' :: b ≠ [] := by simp
  have hlast : (a ++ '\n' :: '\n' :: b).getLast? = b.getLast? := by
    rw [List.getLast?_append_of_ne_nil _ (by simp)]
    show ('\n' :: b).getLast? = _
    cases b with
    | nil => exact absurd rfl hbne
    | cons x xs => rw [List.getLast?_cons_cons]
  have hlastn : (a ++ '\n' :: '\n' :: b).getLast? ≠ some '\n' := by
    rw [hlast]
    intro hx
    exact hb (List.mem_of_mem_getLast? hx)
  unfold splitLines
  rw [if_neg hne, if_neg hlastn, hraw]
  have hacr' : (if a.getLast? = some '\r' then a.dropLast else a) = a := by
    rw [if_neg hacr]
  have hbcr' : (if b.getLast? = some '\r' then b.dropLast else b) = b := by
    rw [if_neg hbcr]
  simp only [List.map_cons, List.map_nil, hacr', hbcr']
  rfl

end Mermaid

namespace Mermaid

/-! ## Rendered-block scanner and edit builder (`lsp/src/main.rs`) -/

/-- `RenderedBlock` from `lsp/src/main.rs`: the marker-comment line, the
last line of the block, and the `.mmd` source path carried by the marker. -/
structure RenderedBlock where
  comment_line : Nat
  end_line : Nat
  source_file : List Char
deriving DecidableEq, Repr

/-- Rust `str::strip_prefix` (for list-of-character strings). -/
def stripPrefixOf (s p : List Char) : Option (List Char) :=
  if p.isPrefixOf s then some (s.drop p.length) else none

/-- Rust `str::strip_suffix` (for list-of-character strings). -/
def stripSuffixOf (s p : List Char) : Option (List Char) :=
  if p.isSuffixOf s then some (s.take (s.length - p.length)) else none

/-- `extract_source_file_path` from `lsp/src/main.rs`: a trimmed line of
the exact form `<!-- mermaid-source-file:<path> -->` yields the trimmed
`<path>`. -/
def extract_source_file_path (line : List Char) : Option (List Char) :=
  if startsWith (trim line) (str "<!-- mermaid-source-file:") &&
     endsWith (trim line) (str "-->") then do
    let a ← stripPrefixOf (trim line) (str "<!-- mermaid-source-file:")
    let b ← stripSuffixOf a (str "-->")
    some (trim b)
  else
    none

/-- The look-ahead loop of `find_all_rendered_blocks`: skip blank lines
after the marker; if the first non-blank line is an image reference into
`.mermaid/`, return its index, otherwise nothing. -/
def findImageFrom (lines : List (List Char)) (j : Nat) : Option Nat :=
  if h : j < lines.length then
    if trim (lines.get ⟨j, h⟩) = [] then findImageFrom lines (j + 1)
    else if startsWith (trim (lines.get ⟨j, h⟩)) (str "![") &&
            containsSubstr (trim (lines.get ⟨j, h⟩)) (str "(.mermaid/") then
      some j
    else none
  else none
termination_by lines.length - j

lemma findImageFrom_ge {lines : List (List Char)} :
    ∀ j k, findImageFrom lines j = some k → j ≤ k ∧ k < lines.length := by
  have H : ∀ n j k, lines.length - j ≤ n → findImageFrom lines j = some k →
      j ≤ k ∧ k < lines.length := by
    intro n
    induction n with
    | zero =>
      intro j k hn h
      unfold findImageFrom at h
      split_ifs at h with h1 h2 h3
      · omega
      · cases h
        omega
    | succ n ih =>
      intro j k hn h
      unfold findImageFrom at h
      split_ifs at h with h1 h2 h3
      · have := ih (j + 1) k (by omega) h
        omega
      · cases h
        omega
  exact fun j k h => H (lines.length - j) j k (le_refl _) h

/-- `find_all_rendered_blocks` from `lsp/src/main.rs`: each marker line
opens a block; the block ends at the image line found by the look-ahead (or
at the marker line itself); scanning resumes strictly after the block. -/
def find_all_rendered_blocks (lines : List (List Char)) : List RenderedBlock :=
  go 0
where
  go (i : Nat) : List RenderedBlock :=
    if h : i < lines.length then
      match extract_source_file_path (lines.get ⟨i, h⟩) with
      | some source_file =>
        match hj : findImageFrom lines (i + 1) with
        | some j => { comment_line := i, end_line := j, source_file } :: go (j + 1)
        | none => { comment_line := i, end_line := i, source_file } :: go (i + 1)
      | none => go (i + 1)
    else []
  termination_by lines.length - i
  decreasing_by
    all_goals first
      | (have hk := @findImageFrom_ge lines (i + 1) j hj
         omega)
      | omega

/-- Rust `Path::is_absolute` (Unix semantics), for string paths: the path
begins with the root separator. -/
def isAbsolutePath (p : List Char) : Bool :=
  p.head? = some '/' 

/-- Rust `Path::join` for string paths: an absolute right-hand side
replaces the base entirely, otherwise the components are joined with a
separator. -/
def joinPath (base p : List Char) : List Char :=
  if isAbsolutePath p then p else base ++ '/' :: p

/-- The filesystem contents seen by the edit builder: an association list
from path to file text; a write prepends, a read takes the first match. -/
abbrev FileStore := List (List Char × List Char)

/-- Rust `fs::read_to_string`, over the modelled store. -/
def readFile (store : FileStore) (path : List Char) : Option (List Char) :=
  (store.find? (fun e => e.1 = path)).map (fun e => e.2)

/-- The result of `create_render_edit`: the replacement text for the
fence's line span, and the store after the two `fs::write` calls. -/
structure RenderEditResult where
  start_line : Nat
  end_line : Nat
  replacement : List Char
  store : FileStore
deriving Repr

/-- The persistence and splice steps of `create_render_edit`
(`lsp/src/main.rs`): the sanitized SVG text `svg` (whether it came from the
cache or from the renderer — the digest and cache stages only determine
`svg` and are not modelled here) and the fence code are written under the
`.mermaid` directory of the document's base directory, under names derived
from the document name and a timestamp; the fence's whole line span is
replaced by a marker comment naming the persisted source file plus an image
reference naming the persisted SVG. -/
def create_render_edit (base_dir doc_name timestamp svg : List Char)
    (store : FileStore) (fence : MermaidFence) : RenderEditResult :=
  let mermaid_dir := joinPath base_dir (str ".mermaid")
  let svg_filename := doc_name ++ str "_diagram_" ++ timestamp ++ str ".svg"
  let mmd_filename := doc_name ++ str "_" ++ timestamp ++ str ".mmd"
  let svg_path := joinPath mermaid_dir svg_filename
  let mmd_path := joinPath mermaid_dir mmd_filename
  let store' := (mmd_path, fence.code) :: (svg_path, svg) :: store
  let relative_svg := str ".mermaid/" ++ svg_filename
  let relative_mmd := str ".mermaid/" ++ mmd_filename
  { start_line := fence.start_line
    end_line := fence.end_line
    replacement :=
      str "<!-- mermaid-source-file:" ++ relative_mmd ++ str " -->\n\n![Mermaid Diagram](" ++ relative_svg ++ str ")"
    store := store' }

/-- The line-span replacement produced by `create_source_edit`. -/
structure SourceEdit where
  start_line : Nat
  end_line : Nat
  replacement : List Char
deriving DecidableEq, Repr

/-- `create_source_edit` from `lsp/src/main.rs`: join the block's
`source_file` to the document's base directory, read the persisted mermaid
source (failing the whole edit if unreadable), and replace the block's line
span by the source wrapped back in fence delimiters.  The `source_file` is
used as-is — no validation precedes the filesystem read. -/
def create_source_edit (base_dir : List Char) (store : FileStore)
    (block : RenderedBlock) : Option SourceEdit :=
  let mmd_path := joinPath base_dir block.source_file
  (readFile store mmd_path).map (fun mermaid_code =>
    { start_line := block.comment_line
      end_line := block.end_line
      replacement := str "```mermaid\n" ++ mermaid_code ++ str "\n```" })

end Mermaid

namespace Mermaid

/-- C4 (code bug): the restore direction performs no validation of the
block's `source_reference` before the filesystem read.  A marker carrying
the absolute path `/etc/passwd` is extracted as-is, and `create_source_edit`
reads it (Rust `Path::join` lets an absolute right-hand side replace the
document's base directory entirely); a `..`-traversal reference likewise
escapes the document's directory and is read rather than rejected. -/
theorem restore_uses_source_reference_unvalidated :
    extract_source_file_path (str "<!-- mermaid-source-file:/etc/passwd -->") =
      some (str "/etc/passwd") ∧
    create_source_edit (str "/home/user/docs")
      [(str "/etc/passwd", str "root:x:0:0")]
      ⟨0, 2, str "/etc/passwd"⟩ =
      some ⟨0, 2, str "```mermaid\nroot:x:0:0\n```"⟩ ∧
    create_source_edit (str "/home/user/docs")
      [(str "/home/user/docs/../../../etc/shadow.mmd", str "outside")]
      ⟨0, 2, str "../../../etc/shadow.mmd"⟩ =
      some ⟨0, 2, str "```mermaid\noutside\n```"⟩ := by
  refine ⟨?_, ?_, ?_⟩ <;> rfl

end Mermaid

namespace Mermaid

/-! ## Round-trip lemmas -/

lemma containsSubstr_pre (p b : List Char) : containsSubstr (p ++ b) p = true := by
  cases p with
  | nil =>
    cases b with
    | nil => rfl
    | cons c rest => simp [containsSubstr, List.isPrefixOf]
  | cons c q =>
    show containsSubstr ((c :: q) ++ b) (c :: q) = true
    unfold containsSubstr
    have hpre : (c :: q).isPrefixOf ((c :: q) ++ b) = true := by
      rw [List.isPrefixOf_iff_prefix]
      exact List.prefix_append _ _
    simp [hpre]

lemma containsSubstr_of_mid (a p b : List Char) :
    containsSubstr (a ++ (p ++ b)) p = true := by
  induction a with
  | nil => simpa using containsSubstr_pre p b
  | cons x a' ih =>
    show containsSubstr (x :: (a' ++ (p ++ b))) p = true
    unfold containsSubstr
    rw [ih]
    simp

lemma startsWith_append (p rest : List Char) : startsWith (p ++ rest) p = true := by
  unfold startsWith
  rw [List.isPrefixOf_iff_prefix]
  exact List.prefix_append p rest

/-- Extraction of the marker path: for a path whose first and last
characters are not whitespace, the marker line built by the render
direction is recognised and yields the path unchanged. -/
lemma extract_marker (rel : List Char) (hne : rel ≠ [])
    (hh : ∀ c, rel.head? = some c → rustIsWhitespace c = false)
    (hl : ∀ c, rel.getLast? = some c → rustIsWhitespace c = false) :
    extract_source_file_path
        (str "<!-- mermaid-source-file:" ++ rel ++ str " -->") = some rel := by
  have hline_head : ∀ c,
      (str "<!-- mermaid-source-file:" ++ rel ++ str " -->").head? = some c →
      rustIsWhitespace c = false := by
    intro c hc
    rw [List.append_assoc, List.head?_append_of_ne_nil _ (by decide)] at hc
    cases hc
    decide
  have hline_last : ∀ c,
      (str "<!-- mermaid-source-file:" ++ rel ++ str " -->").getLast? = some c →
      rustIsWhitespace c = false := by
    intro c hc
    rw [List.append_assoc, List.getLast?_append_of_ne_nil _ (by simp [str]),
      List.getLast?_append_of_ne_nil _ (by decide)] at hc
    cases hc
    decide
  have h1 : startsWith (str "<!-- mermaid-source-file:" ++ rel ++ str " -->")
      (str "<!-- mermaid-source-file:") = true := by
    rw [List.append_assoc]
    exact startsWith_append _ _
  have h2 : endsWith (str "<!-- mermaid-source-file:" ++ rel ++ str " -->")
      (str "-->") = true := by
    unfold endsWith
    rw [List.isSuffixOf_iff_suffix]
    have hsplit : str "<!-- mermaid-source-file:" ++ rel ++ str " -->" =
        (str "<!-- mermaid-source-file:" ++ rel ++ str " ") ++ str "-->" := by
      simp [str, List.append_assoc]
    rw [hsplit]
    exact List.suffix_append _ _
  have e1 : stripPrefixOf (str "<!-- mermaid-source-file:" ++ rel ++ str " -->")
      (str "<!-- mermaid-source-file:") = some (rel ++ str " -->") := by
    unfold stripPrefixOf
    have hp : (str "<!-- mermaid-source-file:").isPrefixOf
        (str "<!-- mermaid-source-file:" ++ (rel ++ str " -->")) = true := by
      rw [List.isPrefixOf_iff_prefix]
      exact List.prefix_append _ _
    rw [List.append_assoc, hp]
    simp only [if_true]
    rw [List.drop_left]
  have e2 : stripSuffixOf (rel ++ str " -->") (str "-->") = some (rel ++ str " ") := by
    unfold stripSuffixOf
    have hs : (str "-->").isSuffixOf (rel ++ str " -->") = true := by
      rw [List.isSuffixOf_iff_suffix]
      have hsplit : rel ++ str " -->" = (rel ++ str " ") ++ str "-->" := by
        simp [str, List.append_assoc]
      rw [hsplit]
      exact List.suffix_append _ _
    rw [hs]
    simp only [if_true, Option.some.injEq]
    have hlen : (rel ++ str " -->").length - (str "-->").length =
        (rel ++ str " ").length := by
      simp [str]
    rw [hlen]
    have hsplit : rel ++ str " -->" = (rel ++ str " ") ++ str "-->" := by
      simp [str, List.append_assoc]
    rw [hsplit, List.take_left]
  have e3 : trim (rel ++ str " ") = rel := by
    unfold trim
    rw [trimStart_eq_self (by
      intro c hc
      cases hrel : rel with
      | nil => exact absurd hrel hne
      | cons x xs =>
        rw [hrel] at hc
        simp only [List.cons_append, List.head?_cons] at hc
        exact hh c (by rw [hrel]; cases hc; rfl))]
    show trimEnd (rel ++ [' ']) = rel
    rw [trimEnd_append_singleton_ws (by decide)]
    exact trimEnd_eq_self hl
  unfold extract_source_file_path
  rw [trim_eq_self hline_head hline_last]
  simp only [h1, h2, Bool.and_self, if_true]
  rw [e1]
  simp only [Option.bind_eq_bind, Option.some_bind]
  rw [e2]
  simp only [Option.bind_eq_bind, Option.some_bind]
  rw [e3]

end Mermaid

namespace Mermaid

lemma findImageFrom_three {A B : List Char}
    (hBne : trim B ≠ [])
    (hB1 : startsWith (trim B) (str "![") = true)
    (hB2 : containsSubstr (trim B) (str "(.mermaid/") = true) :
    findImageFrom [A, [], B] 1 = some 2 := by
  unfold findImageFrom
  rw [dif_pos (show 1 < ([A, [], B] : List (List Char)).length by simp)]
  rw [if_pos (show trim (([A, [], B] : List (List Char)).get ⟨1, by simp⟩) = [] from rfl)]
  unfold findImageFrom
  rw [dif_pos (show 2 < ([A, [], B] : List (List Char)).length by simp)]
  have hget : (([A, [], B] : List (List Char)).get ⟨2, by simp⟩) = B := rfl
  rw [hget, if_neg hBne, if_pos (by simp [hB1, hB2])]

lemma rendered_blocks_three {A B rel : List Char}
    (hA : extract_source_file_path A = some rel)
    (hBne : trim B ≠ [])
    (hB1 : startsWith (trim B) (str "![") = true)
    (hB2 : containsSubstr (trim B) (str "(.mermaid/") = true) :
    find_all_rendered_blocks [A, [], B] = [⟨0, 2, rel⟩] := by
  have himg := @findImageFrom_three A _ hBne hB1 hB2
  show find_all_rendered_blocks.go [A, [], B] 0 = _
  unfold find_all_rendered_blocks.go
  rw [dif_pos (show 0 < ([A, [], B] : List (List Char)).length by simp)]
  have hget : (([A, [], B] : List (List Char)).get ⟨0, by simp⟩) = A := rfl
  rw [hget, hA]
  have himg' : findImageFrom [A, [], B] (0 + 1) = some 2 := himg
  dsimp only
  split
  case _ j hj =>
    rw [himg'] at hj
    cases hj
    have hdone : find_all_rendered_blocks.go [A, [], B] (2 + 1) = [] := by
      unfold find_all_rendered_blocks.go
      rw [dif_neg (by simp)]
    rw [hdone]
  case _ hj =>
    rw [himg'] at hj
    cases hj

end Mermaid

namespace Mermaid

/-- C2: rendering a fence persists its code to a `.mmd` file and replaces
the fence with a marker comment plus image reference; scanning that
replacement finds exactly one rendered block, and restoring it reads the
persisted code back and wraps it in fence delimiters, so the restored
block's interior is byte-identical to the original fence code.  The
document name and timestamp are assumed free of newlines and the document
name free of path separators (as produced by `file_stem` and the timestamp
format). -/
theorem render_restore_roundtrip
    (base_dir doc_name timestamp svg : List Char) (store : FileStore)
    (fence : MermaidFence)
    (hdn : '\n' ∉ doc_name) (htn : '\n' ∉ timestamp) (hds : '/' ∉ doc_name) :
    find_all_rendered_blocks
        (splitLines
          (create_render_edit base_dir doc_name timestamp svg store fence).replacement) =
      [⟨0, 2, str ".mermaid/" ++ (doc_name ++ str "_" ++ timestamp ++ str ".mmd")⟩] ∧
    create_source_edit base_dir
        (create_render_edit base_dir doc_name timestamp svg store fence).store
        ⟨0, 2, str ".mermaid/" ++ (doc_name ++ str "_" ++ timestamp ++ str ".mmd")⟩ =
      some ⟨0, 2, str "```mermaid\n" ++ fence.code ++ str "\n```"⟩ := by
  have hmmdf_ne : doc_name ++ str "_" ++ timestamp ++ str ".mmd" ≠ [] := by
    simp [str]
  have hmmdf_last : (doc_name ++ str "_" ++ timestamp ++ str ".mmd").getLast? = some 'd' := by
    rw [List.getLast?_append_of_ne_nil _ (by decide)]
    decide
  have hrel_ne : str ".mermaid/" ++ (doc_name ++ str "_" ++ timestamp ++ str ".mmd") ≠ [] := by
    simp [str]
  have hrel_head : (str ".mermaid/" ++ (doc_name ++ str "_" ++ timestamp ++ str ".mmd")).head? = some '.' := by
    rw [List.head?_append_of_ne_nil _ (by decide)]
    decide
  have hrel_last : (str ".mermaid/" ++ (doc_name ++ str "_" ++ timestamp ++ str ".mmd")).getLast? = some 'd' := by
    rw [List.getLast?_append_of_ne_nil _ hmmdf_ne]
    exact hmmdf_last
  have hnl_rel : '\n' ∉ str ".mermaid/" ++ (doc_name ++ str "_" ++ timestamp ++ str ".mmd") :=
    List.not_mem_append (by decide)
      (List.not_mem_append
        (List.not_mem_append (List.not_mem_append hdn (by decide)) htn) (by decide))
  have hextract := extract_marker
    (str ".mermaid/" ++ (doc_name ++ str "_" ++ timestamp ++ str ".mmd"))
    hrel_ne
    (by intro c hc; rw [hrel_head] at hc; cases hc; decide)
    (by intro c hc; rw [hrel_last] at hc; cases hc; decide)
  have hnl_svg : '\n' ∉ str ".mermaid/" ++ (doc_name ++ str "_diagram_" ++ timestamp ++ str ".svg") :=
    List.not_mem_append (by decide)
      (List.not_mem_append
        (List.not_mem_append (List.not_mem_append hdn (by decide)) htn) (by decide))
  have k1 : str " -->\n\n![Mermaid Diagram](" =
      str " -->" ++ ('\n' :: '\n' :: str "![Mermaid Diagram](") := by decide
  have hrepl : (create_render_edit base_dir doc_name timestamp svg store fence).replacement =
      (str "<!-- mermaid-source-file:" ++ (str ".mermaid/" ++ (doc_name ++ str "_" ++ timestamp ++ str ".mmd")) ++ str " -->") ++
        '\n' :: '\n' ::
      (str "![Mermaid Diagram](" ++ (str ".mermaid/" ++ (doc_name ++ str "_diagram_" ++ timestamp ++ str ".svg")) ++ str ")") := by
    show str "<!-- mermaid-source-file:" ++ (str ".mermaid/" ++ (doc_name ++ str "_" ++ timestamp ++ str ".mmd")) ++ str " -->\n\n![Mermaid Diagram](" ++ (str ".mermaid/" ++ (doc_name ++ str "_diagram_" ++ timestamp ++ str ".svg")) ++ str ")" = _
    rw [k1]
    simp [List.append_assoc]
  have hA_last : (str "<!-- mermaid-source-file:" ++ (str ".mermaid/" ++ (doc_name ++ str "_" ++ timestamp ++ str ".mmd")) ++ str " -->").getLast? = some '>' := by
    rw [List.getLast?_append_of_ne_nil _ (by decide)]
    decide
  have hB_last : (str "![Mermaid Diagram](" ++ (str ".mermaid/" ++ (doc_name ++ str "_diagram_" ++ timestamp ++ str ".svg")) ++ str ")").getLast? = some ')' := by
    rw [List.getLast?_append_of_ne_nil _ (by decide)]
    decide
  have hB_head : (str "![Mermaid Diagram](" ++ (str ".mermaid/" ++ (doc_name ++ str "_diagram_" ++ timestamp ++ str ".svg")) ++ str ")").head? = some '!' := by
    rw [List.append_assoc, List.head?_append_of_ne_nil _ (by decide)]
    decide
  have hnlA : '\n' ∉ str "<!-- mermaid-source-file:" ++ (str ".mermaid/" ++ (doc_name ++ str "_" ++ timestamp ++ str ".mmd")) ++ str " -->" :=
    List.not_mem_append (List.not_mem_append (by decide) hnl_rel) (by decide)
  have hnlB : '\n' ∉ str "![Mermaid Diagram](" ++ (str ".mermaid/" ++ (doc_name ++ str "_diagram_" ++ timestamp ++ str ".svg")) ++ str ")" :=
    List.not_mem_append (List.not_mem_append (by decide) hnl_svg) (by decide)
  have hBne : (str "![Mermaid Diagram](" ++ (str ".mermaid/" ++ (doc_name ++ str "_diagram_" ++ timestamp ++ str ".svg")) ++ str ")") ≠ [] := by
    simp [str]
  have htrimB : trim (str "![Mermaid Diagram](" ++ (str ".mermaid/" ++ (doc_name ++ str "_diagram_" ++ timestamp ++ str ".svg")) ++ str ")") =
      str "![Mermaid Diagram](" ++ (str ".mermaid/" ++ (doc_name ++ str "_diagram_" ++ timestamp ++ str ".svg")) ++ str ")" := by
    apply trim_eq_self
    · intro c hc; rw [hB_head] at hc; cases hc; decide
    · intro c hc; rw [hB_last] at hc; cases hc; decide
  have k2 : str "![Mermaid Diagram](" ++ str ".mermaid/" =
      str "![Mermaid Diagram]" ++ str "(.mermaid/" := by decide
  have hBeq : str "![Mermaid Diagram](" ++ (str ".mermaid/" ++ (doc_name ++ str "_diagram_" ++ timestamp ++ str ".svg")) ++ str ")" =
      str "![Mermaid Diagram]" ++ (str "(.mermaid/" ++ ((doc_name ++ str "_diagram_" ++ timestamp ++ str ".svg") ++ str ")")) := by
    calc str "![Mermaid Diagram](" ++ (str ".mermaid/" ++ (doc_name ++ str "_diagram_" ++ timestamp ++ str ".svg")) ++ str ")"
        = (str "![Mermaid Diagram](" ++ str ".mermaid/") ++ ((doc_name ++ str "_diagram_" ++ timestamp ++ str ".svg") ++ str ")") := by
          simp [List.append_assoc]
      _ = (str "![Mermaid Diagram]" ++ str "(.mermaid/") ++ ((doc_name ++ str "_diagram_" ++ timestamp ++ str ".svg") ++ str ")") := by
          rw [k2]
      _ = str "![Mermaid Diagram]" ++ (str "(.mermaid/" ++ ((doc_name ++ str "_diagram_" ++ timestamp ++ str ".svg") ++ str ")")) := by
          simp [List.append_assoc]
  have hB1 : startsWith (trim (str "![Mermaid Diagram](" ++ (str ".mermaid/" ++ (doc_name ++ str "_diagram_" ++ timestamp ++ str ".svg")) ++ str ")")) (str "![") = true := by
    rw [htrimB]
    have : str "![Mermaid Diagram](" ++ (str ".mermaid/" ++ (doc_name ++ str "_diagram_" ++ timestamp ++ str ".svg")) ++ str ")" =
        str "![" ++ (str "Mermaid Diagram](" ++ ((str ".mermaid/" ++ (doc_name ++ str "_diagram_" ++ timestamp ++ str ".svg")) ++ str ")")) := by
      have k4 : str "![Mermaid Diagram](" = str "![" ++ str "Mermaid Diagram](" := by decide
      rw [k4]
      simp [List.append_assoc]
    rw [this]
    exact startsWith_append _ _
  have hB2 : containsSubstr (trim (str "![Mermaid Diagram](" ++ (str ".mermaid/" ++ (doc_name ++ str "_diagram_" ++ timestamp ++ str ".svg")) ++ str ")")) (str "(.mermaid/") = true := by
    rw [htrimB, hBeq]
    exact containsSubstr_of_mid _ _ _
  constructor
  · rw [hrepl, splitLines_three hnlA hnlB hBne (by rw [hA_last]; decide) (by rw [hB_last]; decide)]
    exact rendered_blocks_three hextract (by rw [htrimB]; exact hBne) hB1 hB2
  · have habs_rel : isAbsolutePath (str ".mermaid/" ++ (doc_name ++ str "_" ++ timestamp ++ str ".mmd")) = false := by
      unfold isAbsolutePath
      rw [hrel_head]
      decide
    have habs_m : isAbsolutePath (str ".mermaid") = false := by decide
    have hfhead : ∃ c0, (doc_name ++ str "_" ++ timestamp ++ str ".mmd").head? = some c0 ∧ c0 ≠ '/' := by
      cases hd : doc_name with
      | nil =>
        refine ⟨'_', ?_, by decide⟩
        simp only [List.nil_append]
        rw [List.append_assoc, List.head?_append_of_ne_nil _ (by decide)]
        decide
      | cons c d =>
        exact ⟨c, by simp, fun hcc => hds (by rw [hd, hcc]; exact List.mem_cons_self _ _)⟩
    obtain ⟨c0, hc0, hc0ne⟩ := hfhead
    have habs_f : isAbsolutePath (doc_name ++ str "_" ++ timestamp ++ str ".mmd") = false := by
      unfold isAbsolutePath
      rw [hc0]
      simp [hc0ne]
    have k3 : str ".mermaid/" = str ".mermaid" ++ ['/'] := by decide
    have hjoin : joinPath base_dir (str ".mermaid/" ++ (doc_name ++ str "_" ++ timestamp ++ str ".mmd")) =
        joinPath (joinPath base_dir (str ".mermaid")) (doc_name ++ str "_" ++ timestamp ++ str ".mmd") := by
      unfold joinPath
      rw [habs_rel, habs_m, habs_f]
      simp only [Bool.false_eq_true, if_false]
      rw [k3]
      simp [List.append_assoc]
    show (readFile ((joinPath (joinPath base_dir (str ".mermaid")) (doc_name ++ str "_" ++ timestamp ++ str ".mmd"), fence.code) ::
        (joinPath (joinPath base_dir (str ".mermaid")) (doc_name ++ str "_diagram_" ++ timestamp ++ str ".svg"), svg) :: store)
        (joinPath base_dir (str ".mermaid/" ++ (doc_name ++ str "_" ++ timestamp ++ str ".mmd")))).map _ = _
    rw [hjoin]
    unfold readFile
    rw [List.find?_cons_of_pos _ (by simp)]
    rfl

end Mermaid

namespace Mermaid

/-- C2 witness: a concrete render of a two-line diagram followed by an
immediate restore reproduces the original code between the fences. -/
theorem render_restore_roundtrip_witness :
    find_all_rendered_blocks
        (splitLines
          (create_render_edit (str "/home/user") (str "notes") (str "20240101_120000")
            (str "<svg/>") [] ⟨0, 3, str "graph TD\n  A --> B"⟩).replacement) =
      [⟨0, 2, str ".mermaid/" ++ (str "notes" ++ str "_" ++ str "20240101_120000" ++ str ".mmd")⟩] ∧
    create_source_edit (str "/home/user")
        (create_render_edit (str "/home/user") (str "notes") (str "20240101_120000")
          (str "<svg/>") [] ⟨0, 3, str "graph TD\n  A --> B"⟩).store
        ⟨0, 2, str ".mermaid/" ++ (str "notes" ++ str "_" ++ str "20240101_120000" ++ str ".mmd")⟩ =
      some ⟨0, 2, str "```mermaid\n" ++ str "graph TD\n  A --> B" ++ str "\n```"⟩ :=
  render_restore_roundtrip (str "/home/user") (str "notes") (str "20240101_120000")
    (str "<svg/>") [] ⟨0, 3, str "graph TD\n  A --> B"⟩ (by decide) (by decide) (by decide)

end Mermaid

namespace Mermaid

/-! ## SVG sanitizer — `lsp/src/render.rs`

The sanitizer works on Rust strings; strings are lists of characters here.
Case-insensitivity (`str::to_lowercase`, regex `(?i)`) is modelled at the
simple (ASCII) case-mapping level, which agrees with Rust on every
character of the ASCII patterns involved. -/

/-- Rust `str::to_lowercase` (simple case mapping). -/
def toLowercase (s : List Char) : List Char := s.map Char.toLower

/-- Split `s` at the first occurrence of `c`: the characters before it and
the rest after it. -/
def splitAtFirst (c : Char) : List Char → Option (List Char × List Char)
  | [] => none
  | a :: t =>
    if a = c then some ([], t)
    else (splitAtFirst c t).map (fun pr => (a :: pr.1, pr.2))

lemma splitAtFirst_rest_lt (c : Char) :
    ∀ (s p r : List Char), splitAtFirst c s = some (p, r) → r.length < s.length := by
  intro s
  induction s with
  | nil => intro p r h; simp [splitAtFirst] at h
  | cons a t ih =>
    intro p r h
    by_cases hac : a = c
    · simp [splitAtFirst, hac] at h
      simp [← h.2]
    · simp only [splitAtFirst, if_neg hac, Option.map_eq_some'] at h
      obtain ⟨⟨p', r'⟩, hsp, heq⟩ := h
      have hr : r = r' := by
        have := congrArg Prod.snd heq
        simpa using this.symm
      subst hr
      have := ih p' r hsp
      simp
      omega

/-- Case-insensitive literal-prefix match (regex `(?i)` on an ASCII
literal): strips `pat` from the front of `s`, comparing lowercased. -/
def stripPrefixCI : List Char → List Char → Option (List Char)
  | [], s => some s
  | _ :: _, [] => none
  | p :: pt, c :: ct =>
    if c.toLower = p.toLower then stripPrefixCI pt ct else none

/-! ### Scanner combinators for the two strip regexes

Each matcher, run at one position of the text, returns the number of
characters the regex match consumes there (`none` when the regex cannot
match at that position).  The regexes contain no genuine backtracking
choices: every quantified class is disjoint from what must follow it, so
greedy runs are forced to their maximal extent. -/

/-- `C+` for a character class `p`: the (non-empty) maximal run. -/
def takeClass1 (p : Char → Bool) (s : List Char) : Option (Nat × List Char) :=
  if (s.takeWhile p).length = 0 then none
  else some ((s.takeWhile p).length, s.drop (s.takeWhile p).length)

/-- `\s*`: the maximal (possibly empty) whitespace run. -/
def wsSplit (s : List Char) : Nat × List Char :=
  ((s.takeWhile rustIsWhitespace).length, s.dropWhile rustIsWhitespace)

/-- A case-insensitive literal. -/
def takeLitCI (pat s : List Char) : Option (Nat × List Char) :=
  (stripPrefixCI pat s).map (fun r => (pat.length, r))

/-- A single literal character. -/
def takeChar (a : Char) : List Char → Option (Nat × List Char)
  | [] => none
  | c :: t => if c = a then some (1, t) else none

/-- The character class `[a-z0-9_.:-]` under `(?i)`. -/
def isHandlerNameChar (c : Char) : Bool :=
  c.isAlpha || c.isDigit || c = '_' || c = '.' || c = ':' || c = '-'

/-- Regex alternative `[^\s>]+`: a bare (unquoted) attribute value. -/
def matchAttrBare (s : List Char) : Option Nat :=
  if (s.takeWhile (fun c => !rustIsWhitespace c && c != '>')).length = 0 then none
  else some (s.takeWhile (fun c => !rustIsWhitespace c && c != '>')).length

/-- Regex group `(?:"[^"]*"|'[^']*'|[^\s>]+)`: a quoted alternative needs a
closing quote; with the cursor on a quote that never closes, only the bare
alternative can still match (the quote itself is not whitespace or `>`). -/
def matchAttrValue (s : List Char) : Option Nat :=
  match s with
  | '\"' :: t =>
    match splitAtFirst '\"' t with
    | some (p, _) => some (p.length + 2)
    | none => matchAttrBare s
  | '\'' :: t =>
    match splitAtFirst '\'' t with
    | some (p, _) => some (p.length + 2)
    | none => matchAttrBare s
  | _ => matchAttrBare s

/-- `EVENT_HANDLER_ATTR` after its leading `\s+`:
`on[a-z0-9_.:-]+\s*=\s*(?:"[^"]*"|'[^']*'|[^\s>]+)` under `(?i)`. -/
def matchEventHandlerAfterWs (s : List Char) : Option Nat := do
  let (n2, s2) ← takeLitCI (str "on") s
  let (n3, s3) ← takeClass1 isHandlerNameChar s2
  let (n4, s4) := wsSplit s3
  let (n5, s5) ← takeChar '=' s4
  let (n6, s6) := wsSplit s5
  let n7 ← matchAttrValue s6
  return n2 + n3 + n4 + n5 + n6 + n7

/-- The full `EVENT_HANDLER_ATTR` regex
`(?i)\s+on[a-z0-9_.:-]+\s*=\s*(?:"[^"]*"|'[^']*'|[^\s>]+)`
matched at one position. -/
def matchEventHandlerAt (s : List Char) : Option Nat := do
  let (n1, _s1) ← takeClass1 rustIsWhitespace s
  let m ← matchEventHandlerAfterWs _s1
  return n1 + m

lemma takeClass1_pos {p : Char → Bool} {s : List Char} {n : Nat} {r : List Char}
    (h : takeClass1 p s = some (n, r)) : 0 < n := by
  unfold takeClass1 at h
  split_ifs at h with h0
  simp at h
  omega

lemma matchEventHandlerAt_pos {s : List Char} {n : Nat}
    (h : matchEventHandlerAt s = some n) : 0 < n := by
  unfold matchEventHandlerAt at h
  rcases htw : takeClass1 rustIsWhitespace s with _ | ⟨n1, s1⟩
  · rw [htw] at h; simp at h
  · rw [htw] at h
    simp only [Option.bind_eq_bind, Option.some_bind] at h
    rcases hm : matchEventHandlerAfterWs s1 with _ | m
    · rw [hm] at h; simp at h
    · rw [hm] at h
      simp at h
      have := takeClass1_pos htw
      omega

/-- `EVENT_HANDLER_ATTR.replace_all(s, "")`: scan left to right, deleting
every (leftmost, non-overlapping) match. -/
def stripEventHandlers (s : List Char) : List Char := go s
where
  go : List Char → List Char
    | [] => []
    | c :: t =>
      match h : matchEventHandlerAt (c :: t) with
      | some n => go ((c :: t).drop n)
      | none => c :: go t
  termination_by l => l.length
  decreasing_by
    · have := matchEventHandlerAt_pos h
      simp only [List.length_drop, List.length_cons]
      omega
    · simp

/-- `(?:xlink:)?` — optional literal; no backtracking interaction with the
following `href`, since `x` and `h` differ. -/
def matchOptXlink (s : List Char) : Nat × List Char :=
  match stripPrefixCI (str "xlink:") s with
  | some r => (6, r)
  | none => (0, s)

/-- One quoted alternative of `JAVASCRIPT_HREF_ATTR`'s value group:
`q\s*javascript:[^q]*q` for a quote character `q`, under `(?i)`. -/
def matchJsQuotedValue (q : Char) (s : List Char) : Option Nat := do
  let (n1, s1) ← takeChar q s
  let (n2, s2) := wsSplit s1
  let (n3, s3) ← takeLitCI (str "javascript:") s2
  let (p, _) ← splitAtFirst q s3
  return n1 + n2 + n3 + p.length + 1

/-- The value group `(?:"\s*javascript:[^"]*"|'\s*javascript:[^']*')`. -/
def matchJsValue (s : List Char) : Option Nat :=
  match matchJsQuotedValue '\"' s with
  | some v => some v
  | none => matchJsQuotedValue '\'' s

/-- `JAVASCRIPT_HREF_ATTR` after its leading `\s+`:
`(?:xlink:)?href\s*=\s*(?:"\s*javascript:[^"]*"|'\s*javascript:[^']*')`. -/
def matchJsHrefAfterWs (s : List Char) : Option Nat := do
  let (np, sp) := matchOptXlink s
  let (n2, s2) ← takeLitCI (str "href") sp
  let (n3, s3) := wsSplit s2
  let (n4, s4) ← takeChar '=' s3
  let (n5, s5) := wsSplit s4
  let n6 ← matchJsValue s5
  return np + n2 + n3 + n4 + n5 + n6

/-- The full `JAVASCRIPT_HREF_ATTR` regex matched at one position. -/
def matchJsHrefAt (s : List Char) : Option Nat := do
  let (n1, _s1) ← takeClass1 rustIsWhitespace s
  let m ← matchJsHrefAfterWs _s1
  return n1 + m

lemma matchJsHrefAt_pos {s : List Char} {n : Nat}
    (h : matchJsHrefAt s = some n) : 0 < n := by
  unfold matchJsHrefAt at h
  rcases htw : takeClass1 rustIsWhitespace s with _ | ⟨n1, s1⟩
  · rw [htw] at h; simp at h
  · rw [htw] at h
    simp only [Option.bind_eq_bind, Option.some_bind] at h
    rcases hm : matchJsHrefAfterWs s1 with _ | m
    · rw [hm] at h; simp at h
    · rw [hm] at h
      simp at h
      have := takeClass1_pos htw
      omega

/-- `JAVASCRIPT_HREF_ATTR.replace_all(s, "")`. -/
def stripJavascriptHrefs (s : List Char) : List Char := go s
where
  go : List Char → List Char
    | [] => []
    | c :: t =>
      match h : matchJsHrefAt (c :: t) with
      | some n => go ((c :: t).drop n)
      | none => c :: go t
  termination_by l => l.length
  decreasing_by
    · have := matchJsHrefAt_pos h
      simp only [List.length_drop, List.length_cons]
      omega
    · simp

end Mermaid

namespace Mermaid

/-! ### foreignObject conversion — `convert_foreign_objects` and helpers -/

/-- The lazy tail of `FOREIGN_OBJECT_REGEX`: after the opening tag, the
capture `(.*?)</foreignObject>` takes the shortest run of non-newline
characters (default mode `.` excludes `\n`) up to a literal closing tag.
Returns the captured content and the text after the closing tag. -/
def scanFOContent : List Char → Option (List Char × List Char)
  | [] => none
  | c :: t =>
    if (str "</foreignObject>").isPrefixOf (c :: t) then some ([], (c :: t).drop 16)
    else if c = '\n' then none
    else (scanFOContent t).map (fun pr => (c :: pr.1, pr.2))

/-- `FOREIGN_OBJECT_REGEX` (`<foreignObject[^>]*>(.*?)</foreignObject>`)
matched with its start anchored at the head of `s`: the literal, then
`[^>]*>` (forced to the first `>`), then the lazy capture.  Returns the
whole match and the capture. -/
def matchForeignHere (s : List Char) : Option (List Char × List Char) :=
  match stripPrefixOf s (str "<foreignObject") with
  | none => none
  | some r1 =>
    match splitAtFirst '>' r1 with
    | none => none
    | some (attrs, r2) =>
      match scanFOContent r2 with
      | none => none
      | some (content, _) =>
        some (str "<foreignObject" ++ attrs ++ ['>'] ++ content ++ str "</foreignObject>",
              content)

/-- `FOREIGN_OBJECT_REGEX.captures`: the leftmost match in `s`, as the
pair (full match, captured content). -/
def findForeignObject : List Char → Option (List Char × List Char)
  | [] => none
  | c :: t =>
    match matchForeignHere (c :: t) with
    | some fc => some fc
    | none => findForeignObject t

/-- `HTML_TAG_REGEX.replace_all(s, "")` for `<[^>]*>`: each match runs
from a `<` to the next `>`.  When no `>` remains after a `<`, no later
position can start a match either, so the rest is kept verbatim. -/
def strip_tags : List Char → List Char
  | [] => []
  | c :: t =>
    if c = '<' then
      match h : splitAtFirst '>' t with
      | some (_, rest) => strip_tags rest
      | none => c :: t
    else c :: strip_tags t
  termination_by s => s.length
  decreasing_by
    · have := splitAtFirst_rest_lt '>' _ _ _ h
      simp
      omega
    · simp

/-- Value of one `&name;` character reference, modelling
`html_escape::decode_html_entities` on the numeric references and the
core named references used by the generated markup. -/
def charFromCode (n : Nat) : List Char :=
  if n.isValidChar then [Char.ofNat n] else [Char.ofNat 0xFFFD]

/-- One hexadecimal digit. -/
def hexVal (c : Char) : Option Nat :=
  if c.isDigit then some (c.toNat - 48)
  else if 'a' ≤ c && c ≤ 'f' then some (c.toNat - 87)
  else if 'A' ≤ c && c ≤ 'F' then some (c.toNat - 55)
  else none

/-- Digit-string value in a base (`none` on empty or out-of-base digits). -/
def digitsVal (base : Nat) (ds : List Char) : Option Nat :=
  ds.foldl
    (fun acc c =>
      acc.bind fun a => (hexVal c).bind fun v =>
        if v < base then some (base * a + v) else none)
    (if ds.isEmpty then none else some 0)

def entityValue (name : List Char) : Option (List Char) :=
  match name with
  | '#' :: 'x' :: ds => (digitsVal 16 ds).map charFromCode
  | '#' :: 'X' :: ds => (digitsVal 16 ds).map charFromCode
  | '#' :: ds => (digitsVal 10 ds).map charFromCode
  | _ =>
    if name = str "lt" then some ['<']
    else if name = str "gt" then some ['>']
    else if name = str "amp" then some ['&']
    else if name = str "quot" then some ['\"']
    else if name = str "apos" then some ['\'']
    else if name = str "nbsp" then some [Char.ofNat 160]
    else none

/-- `html_escape::decode_html_entities`: semicolon-terminated character
references are decoded; an `&` that does not start a recognised reference
is kept as-is. -/
def decodeEntities : List Char → List Char
  | [] => []
  | '&' :: t =>
    match h : splitAtFirst ';' t with
    | some (name, rest) =>
      match entityValue name with
      | some cs => cs ++ decodeEntities rest
      | none => '&' :: decodeEntities t
    | none => '&' :: decodeEntities t
  | c :: t => c :: decodeEntities t
  termination_by s => s.length
  decreasing_by
    · have := splitAtFirst_rest_lt ';' _ _ _ h
      simp
      omega
    · simp
    · simp
    · simp

/-- `extract_text_from_html`: strip tags, decode entities, trim. -/
def extract_text_from_html (html : List Char) : List Char :=
  trim (decodeEntities (strip_tags html))

/-- `extract_attr(tag, attr)`: first match of `attr="([^"]*)"` in `tag`
(the attribute names passed are regex-literal). -/
def extract_attr (tag attr : List Char) : Option (List Char) := go tag
where
  go : List Char → Option (List Char)
    | [] => none
    | c :: t =>
      match stripPrefixOf (c :: t) (attr ++ str "=\"") with
      | some r =>
        match splitAtFirst '\"' r with
        | some (v, _) => some v
        | none => go t
      | none => go t

end Mermaid

namespace Mermaid

/-! ### `f64` parsing and fixed-precision formatting

The floating-point values are modelled exactly over `ℚ`.  `parseF64`
follows the `f64::from_str` grammar on finite decimal inputs
(`inf`/`NaN` forms are treated as unparsable); `formatQ2` models Rust's
`{:.2}` fixed-precision formatting (round to nearest, ties to even, sign
kept on negative values that round to zero). -/

def digitsToNat (ds : List Char) : Nat :=
  ds.foldl (fun a c => a * 10 + (c.toNat - 48)) 0

def pow10 (e : ℤ) : ℚ :=
  if 0 ≤ e then ((10 : ℚ) ^ e.toNat) else 1 / (10 : ℚ) ^ (-e).toNat

/-- Exponent digits with optional sign; the whole rest must be consumed. -/
def parseExpDigits (t : List Char) : Option ℤ :=
  match t with
  | '+' :: u => parseExpNat 1 u
  | '-' :: u => parseExpNat (-1) u
  | _ => parseExpNat 1 t
where
  parseExpNat (sg : ℤ) (u : List Char) : Option ℤ :=
    if (u.takeWhile Char.isDigit).isEmpty || !(u.dropWhile Char.isDigit).isEmpty then none
    else some (sg * digitsToNat (u.takeWhile Char.isDigit))

/-- Optional exponent part `([eE][+-]?Digits)?` ending the string. -/
def parseExpPart (s : List Char) : Option ℤ :=
  match s with
  | [] => some 0
  | 'e' :: t => parseExpDigits t
  | 'E' :: t => parseExpDigits t
  | _ => none

/-- `f64::from_str` on finite decimals:
`[+-]? (Digits '.' Digits? | '.' Digits | Digits) ([eE][+-]?Digits)?`. -/
def parseF64 (s : List Char) : Option ℚ :=
  match s with
  | '+' :: t => parseF64Unsigned 1 t
  | '-' :: t => parseF64Unsigned (-1) t
  | _ => parseF64Unsigned 1 s
where
  parseF64Unsigned (sg : ℚ) (s1 : List Char) : Option ℚ :=
    match s1.dropWhile Char.isDigit with
    | '.' :: t =>
      if (s1.takeWhile Char.isDigit).isEmpty && (t.takeWhile Char.isDigit).isEmpty then none
      else
        (parseExpPart (t.dropWhile Char.isDigit)).map fun e =>
          sg * ((digitsToNat (s1.takeWhile Char.isDigit) : ℚ) +
            (digitsToNat (t.takeWhile Char.isDigit) : ℚ) /
              (10 : ℚ) ^ (t.takeWhile Char.isDigit).length) * pow10 e
    | rest =>
      if (s1.takeWhile Char.isDigit).isEmpty then none
      else (parseExpPart rest).map fun e =>
        sg * (digitsToNat (s1.takeWhile Char.isDigit) : ℚ) * pow10 e

/-- Round to the nearest integer, ties to even. -/
def roundHalfEven (q : ℚ) : ℤ :=
  if q - Int.fdiv q.num q.den < 1 / 2 then Int.fdiv q.num q.den
  else if (1 : ℚ) / 2 < q - Int.fdiv q.num q.den then Int.fdiv q.num q.den + 1
  else if Int.fdiv q.num q.den % 2 = 0 then Int.fdiv q.num q.den
  else Int.fdiv q.num q.den + 1

/-- Two decimal digits, zero-padded. -/
def natDigits2 (n : Nat) : List Char :=
  if n < 10 then '0' :: Nat.toDigits 10 n else Nat.toDigits 10 n

/-- Rust `format("{:.2}", q)` for a finite value. -/
def formatQ2 (q : ℚ) : List Char :=
  (if q < 0 then ['-'] else []) ++
    Nat.toDigits 10 ((roundHalfEven ((if q < 0 then -q else q) * 100)).toNat / 100) ++
    ['.'] ++ natDigits2 ((roundHalfEven ((if q < 0 then -q else q) * 100)).toNat % 100)

/-! ### The per-container replacement of `convert_foreign_objects` -/

/-- `x`/`y`/`width`/`height` reading:
`extract_attr(..).and_then(parse::<f64>().ok()).unwrap_or(0.0)`. -/
def attrF64 (tag attr : List Char) : ℚ :=
  ((extract_attr tag attr).bind parseF64).getD 0

/-- The `<text>` element emitted for a container carrying a `transform`
attribute. -/
def textElementTransform (t text : List Char) : List Char :=
  str "<text transform=\"" ++ t ++
    str "\" text-anchor=\"start\" dominant-baseline=\"hanging\" font-family=\"Arial, sans-serif\" font-size=\"14\" fill=\"#333\">" ++
    text ++ str "</text>"

/-- The `<text>` element emitted for a container without `transform`,
centered at `(cx, cy)` with two-decimal coordinates. -/
def textElementCentered (cx cy : ℚ) (text : List Char) : List Char :=
  str "<text x=\"" ++ formatQ2 cx ++ str "\" y=\"" ++ formatQ2 cy ++
    str "\" text-anchor=\"middle\" dominant-baseline=\"middle\" font-family=\"Arial, sans-serif\" font-size=\"14\" fill=\"#333\">" ++
    text ++ str "</text>"

/-- What one loop iteration of `convert_foreign_objects` substitutes for
the matched container (`[]` both for the empty-text and the non-positive
width/height branches, which replace with the empty string). -/
def replacementFor (full content : List Char) : List Char :=
  if (trim (extract_text_from_html content)).isEmpty then []
  else
    match extract_attr full (str "transform") with
    | some t => textElementTransform t (extract_text_from_html content)
    | none =>
      if attrF64 full (str "width") ≤ 0 ∨ attrF64 full (str "height") ≤ 0 then []
      else
        textElementCentered
          (attrF64 full (str "x") + attrF64 full (str "width") / 2)
          (attrF64 full (str "y") + attrF64 full (str "height") / 2)
          (extract_text_from_html content)

/-- The `while let Some(caps) = FOREIGN_OBJECT_REGEX.captures(&result)`
loop.  The source loop carries no bound; `fuel` counts loop iterations
still allowed, and `none` models a run that does not finish within it. -/
def convert_foreign_objects (fuel : Nat) (s : List Char) : Option (List Char) :=
  match fuel with
  | 0 => none
  | n + 1 =>
    match findForeignObject s with
    | none => some s
    | some (full, content) =>
      convert_foreign_objects n (replaceAll s full (replacementFor full content))

def scriptErrMsg : List Char :=
  str "SVG contains <script> elements - blocked for security"

/-- `sanitize_svg`: reject on a case-insensitive `<script` substring,
otherwise strip event-handler and `javascript:` href attributes and
convert foreignObject containers. -/
def sanitize_svg (fuel : Nat) (svg : List Char) :
    Option (Except (List Char) (List Char)) :=
  if containsSubstr (toLowercase svg) (str "<script") then
    some (Except.error scriptErrMsg)
  else
    match convert_foreign_objects fuel (stripJavascriptHrefs (stripEventHandlers svg)) with
    | some r => some (Except.ok r)
    | none => none

end Mermaid

namespace Mermaid

/-- C1: the sanitizer errors exactly on inputs whose lowercasing contains
`<script`.  When the substring is present the result is the rejection
error for every fuel — the input is never stripped into an Ok output —
and when it is absent every finishing run returns Ok. -/
theorem sanitizer_rejects_script_iff (svg : List Char) :
    (containsSubstr (toLowercase svg) (str "<script") = true →
      ∀ fuel, sanitize_svg fuel svg = some (Except.error scriptErrMsg)) ∧
    (containsSubstr (toLowercase svg) (str "<script") = false →
      ∀ fuel r, sanitize_svg fuel svg = some r → ∃ t, r = Except.ok t) := by
  constructor
  · intro h fuel
    unfold sanitize_svg
    simp [h]
  · intro h fuel r hr
    unfold sanitize_svg at hr
    simp only [h, Bool.false_eq_true, if_false] at hr
    rcases hc : convert_foreign_objects fuel (stripJavascriptHrefs (stripEventHandlers svg))
      with _ | t
    · rw [hc] at hr
      simp at hr
    · rw [hc] at hr
      simp at hr
      exact ⟨t, hr.symm⟩

unseal stripEventHandlers.go stripJavascriptHrefs.go in
/-- C1 witness: a mixed-case `<ScRiPt>` input is rejected with the
security error at any fuel, and a script-free input sanitizes to Ok. -/
theorem sanitizer_rejects_script_iff_witness :
    sanitize_svg 2 (str "<svg><ScRiPt>alert(1)</ScRiPt></svg>") =
      some (Except.error scriptErrMsg) ∧
    (∃ t, (Except.ok (str "<svg/>") : Except (List Char) (List Char)) = Except.ok t) :=
  ⟨(sanitizer_rejects_script_iff (str "<svg><ScRiPt>alert(1)</ScRiPt></svg>")).1 (by decide) 2,
   (sanitizer_rejects_script_iff (str "<svg/>")).2 (by decide) 2
     (Except.ok (str "<svg/>")) (by rfl)⟩

/-- C6: for a matched container without a `transform` attribute, the
substituted text is empty when the width or height read (default 0 for a
missing or unparsable value) is non-positive or the tag-stripped,
entity-decoded, trimmed inner text is empty; otherwise it is a single
`<text>` element centered at `(x + width/2, y + height/2)` with
two-decimal coordinates; and any attribute that is missing or fails to
parse reads as 0. -/
theorem foreign_object_no_transform_conversion (full content : List Char)
    (hnt : extract_attr full (str "transform") = none) :
    ((trim (extract_text_from_html content)).isEmpty = true ∨
        attrF64 full (str "width") ≤ 0 ∨ attrF64 full (str "height") ≤ 0 →
      replacementFor full content = []) ∧
    ((trim (extract_text_from_html content)).isEmpty = false →
      0 < attrF64 full (str "width") → 0 < attrF64 full (str "height") →
      replacementFor full content =
        textElementCentered
          (attrF64 full (str "x") + attrF64 full (str "width") / 2)
          (attrF64 full (str "y") + attrF64 full (str "height") / 2)
          (extract_text_from_html content)) ∧
    (∀ a : List Char, (extract_attr full a).bind parseF64 = none → attrF64 full a = 0) := by
  refine ⟨?_, ?_, ?_⟩
  · intro h
    unfold replacementFor
    rcases h with he | hwh
    · rw [if_pos he]
    · by_cases he : (trim (extract_text_from_html content)).isEmpty
      · rw [if_pos he]
      · rw [if_neg he, hnt]
        rw [if_pos hwh]
  · intro he hw hh
    unfold replacementFor
    rw [if_neg (by simp [he]), hnt]
    rw [if_neg (not_or.mpr ⟨not_le.mpr hw, not_le.mpr hh⟩)]
  · intro a ha
    unfold attrF64
    rw [ha]
    rfl

unseal strip_tags decodeEntities in
/-- C6 witness: the container `x="20" y="30" width="160" height="40"`
with inner HTML `<p>Label</p>` becomes a centered text element at
`(100.00, 50.00)` with the inner tags gone. -/
theorem foreign_object_no_transform_conversion_witness :
    replacementFor
        (str "<foreignObject x=\"20\" y=\"30\" width=\"160\" height=\"40\"><p>Label</p></foreignObject>")
        (str "<p>Label</p>") =
      str "<text x=\"100.00\" y=\"50.00\" text-anchor=\"middle\" dominant-baseline=\"middle\" font-family=\"Arial, sans-serif\" font-size=\"14\" fill=\"#333\">Label</text>" := by
  have hw : attrF64
      (str "<foreignObject x=\"20\" y=\"30\" width=\"160\" height=\"40\"><p>Label</p></foreignObject>")
      (str "width") = 160 := by
    have he : extract_attr
        (str "<foreignObject x=\"20\" y=\"30\" width=\"160\" height=\"40\"><p>Label</p></foreignObject>")
        (str "width") = some (str "160") := by decide
    unfold attrF64
    rw [he]
    simp [parseF64, parseF64.parseF64Unsigned, parseExpPart, parseExpDigits, digitsToNat,
      pow10, str]
  have hh : attrF64
      (str "<foreignObject x=\"20\" y=\"30\" width=\"160\" height=\"40\"><p>Label</p></foreignObject>")
      (str "height") = 40 := by
    have he : extract_attr
        (str "<foreignObject x=\"20\" y=\"30\" width=\"160\" height=\"40\"><p>Label</p></foreignObject>")
        (str "height") = some (str "40") := by decide
    unfold attrF64
    rw [he]
    simp [parseF64, parseF64.parseF64Unsigned, parseExpPart, parseExpDigits, digitsToNat,
      pow10, str]
  have hx : attrF64
      (str "<foreignObject x=\"20\" y=\"30\" width=\"160\" height=\"40\"><p>Label</p></foreignObject>")
      (str "x") = 20 := by
    have he : extract_attr
        (str "<foreignObject x=\"20\" y=\"30\" width=\"160\" height=\"40\"><p>Label</p></foreignObject>")
        (str "x") = some (str "20") := by decide
    unfold attrF64
    rw [he]
    simp [parseF64, parseF64.parseF64Unsigned, parseExpPart, parseExpDigits, digitsToNat,
      pow10, str]
  have hy : attrF64
      (str "<foreignObject x=\"20\" y=\"30\" width=\"160\" height=\"40\"><p>Label</p></foreignObject>")
      (str "y") = 30 := by
    have he : extract_attr
        (str "<foreignObject x=\"20\" y=\"30\" width=\"160\" height=\"40\"><p>Label</p></foreignObject>")
        (str "y") = some (str "30") := by decide
    unfold attrF64
    rw [he]
    simp [parseF64, parseF64.parseF64Unsigned, parseExpPart, parseExpDigits, digitsToNat,
      pow10, str]
  have htxt : extract_text_from_html (str "<p>Label</p>") = str "Label" := by decide
  have h :=
    (foreign_object_no_transform_conversion
        (str "<foreignObject x=\"20\" y=\"30\" width=\"160\" height=\"40\"><p>Label</p></foreignObject>")
        (str "<p>Label</p>") (by decide)).2.1 (by decide)
      (by rw [hw]; norm_num) (by rw [hh]; norm_num)
  rw [h, hw, hh, hx, hy, htxt]
  have h100 : (20 : ℚ) + 160 / 2 = 100 := by norm_num
  have h50 : (30 : ℚ) + 40 / 2 = 50 := by norm_num
  rw [h100, h50]
  unfold textElementCentered
  have f100 : formatQ2 100 = str "100.00" := by
    unfold formatQ2 roundHalfEven natDigits2
    norm_num
    try decide
  have f50 : formatQ2 50 = str "50.00" := by
    unfold formatQ2 roundHalfEven natDigits2
    norm_num
    try decide
  rw [f100, f50]
  decide

end Mermaid
